import Mathlib

/-!
Shallow embedding of the `ConversaPlay` transcript player
(`src/unnamed/part_000`, the full variant with message grouping and tags;
`src/script.js` and `src/unnamed/part_001` are earlier variants of the same
class whose message paths coincide with the one embedded here).

Modelling conventions:
* JS numbers used as times/positions are embedded as `ℚ` (only order
  comparisons and exact small arithmetic occur in the source).
* DOM state is modelled by its observable content: the conversation window
  becomes a list of `Block`s (one visual message box, holding the texts that
  were appended to it), the tag panel becomes a list of appended tags plus a
  visibility flag, the progress bar becomes its width in percent.
* `this.audio` is modelled by the fields `audioCurrentTime`, `audioPaused`;
  the media clock advancing is an environment action that updates
  `audioCurrentTime` before a handler runs.
* `revealLog` / `tagLog` are observation-only ghost fields recording the
  order in which `showMessage` / tag reveals are emitted; no source logic
  reads them.
* `Rat` division by zero yields 0 where the source would produce NaN
  (`updateProgress` with duration 0); no claim exercises that case.
-/

structure Message where
  type : String
  text : String
  timestamp : ℚ
  deriving DecidableEq, Repr

structure TagData where
  type : String
  label : String
  description : String
  deriving DecidableEq, Repr

structure TagTrigger where
  timestamp : ℚ
  tag : TagData
  deriving DecidableEq, Repr

/-- One visual message box in the conversation window: its speaker type and
the texts appended to it (`createMessageElement` plus any
`appendToExistingMessage` calls). -/
structure Block where
  type : String
  texts : List String
  deriving DecidableEq, Repr

/-- The mutable state of a `ConversaPlay` instance, restricted to the fields
the playback-synchronization logic reads or writes. -/
structure PlayerState where
  conversation : List Message
  currentTabTriggers : List TagTrigger
  tagTriggersTable : List (String × List TagTrigger)
  audioSrc : String
  renderedMessages : Finset ℕ
  renderedTags : Finset ℕ
  isDragging : Bool
  duration : ℚ
  lastRenderTime : ℚ
  animationFrameId : Bool
  hasEnded : Bool
  lastMessageElement : Bool
  lastMessageType : Option String
  blocks : List Block
  tagsContent : List TagData
  tagsVisible : Bool
  progressWidth : ℚ
  currentTimeLabel : String
  totalTimeLabel : String
  audioCurrentTime : ℚ
  audioPaused : Bool
  revealLog : List ℕ
  tagLog : List ℕ
  deriving DecidableEq

/-- JS truncating conversion used by the `%` operator. -/
def jsTrunc (q : ℚ) : ℤ :=
  if 0 ≤ q then ⌊q⌋ else ⌈q⌉

/-- JS remainder `a % n` (sign follows the dividend). -/
def jsMod (a n : ℚ) : ℚ :=
  a - n * (jsTrunc (a / n) : ℚ)

/-- `String.padStart(2, '0')` on an already rendered number. -/
def pad2 (str : String) : String :=
  if str.length < 2 then "0" ++ str else str

/-- `formatTime(seconds)`: minutes and zero-padded seconds. -/
def formatTime (seconds : ℚ) : String :=
  let mins : ℤ := ⌊seconds / 60⌋
  let secs : ℤ := ⌊jsMod seconds 60⌋
  toString mins ++ ":" ++ pad2 (toString secs)

/-- Constructor plus `init`: fresh player with empty reveal state, hidden tag
panel and zeroed progress. -/
def initState (conversationData : List Message) (src : String)
    (table : List (String × List TagTrigger)) (triggers : List TagTrigger) :
    PlayerState :=
  { conversation := conversationData
    currentTabTriggers := triggers
    tagTriggersTable := table
    audioSrc := src
    renderedMessages := ∅
    renderedTags := ∅
    isDragging := false
    duration := 0
    lastRenderTime := 0
    animationFrameId := false
    hasEnded := false
    lastMessageElement := false
    lastMessageType := none
    blocks := []
    tagsContent := []
    tagsVisible := false
    progressWidth := 0
    currentTimeLabel := "0:00"
    totalTimeLabel := "0:00"
    audioCurrentTime := 0
    audioPaused := true
    revealLog := []
    tagLog := [] }

/-- `createMessageElement` + `createNewMessage`: append a fresh block and
point the grouping cursor at it. -/
def createNewMessage (s : PlayerState) (m : Message) : PlayerState :=
  { s with blocks := s.blocks ++ [{ type := m.type, texts := [m.text] }]
           lastMessageElement := true
           lastMessageType := some m.type }

/-- Append one text to the last block of the window (the block referenced by
`lastMessageElement`, which is always the most recently created one). -/
def appendTextToLast : List Block → String → List Block
  | [], _ => []
  | [b], txt => [{ b with texts := b.texts ++ [txt] }]
  | b :: rest, txt => b :: appendTextToLast rest txt

/-- `appendToExistingMessage`: add the text to the current block (the fade-in
styling is presentation-only). -/
def appendToExistingMessage (s : PlayerState) (m : Message) : PlayerState :=
  { s with blocks := appendTextToLast s.blocks m.text }

/-- `appendToExistingMessageForSeek`: same DOM effect as
`appendToExistingMessage`, without the animation styling. -/
def appendToExistingMessageForSeek (s : PlayerState) (m : Message) : PlayerState :=
  { s with blocks := appendTextToLast s.blocks m.text }

/-- `showMessage(message, index)`: group with the previous block when the
speaker type matches, otherwise start a new block; record the index as
rendered. -/
def showMessage (s : PlayerState) (m : Message) (i : ℕ) : PlayerState :=
  let s1 :=
    if s.lastMessageElement = true ∧ s.lastMessageType = some m.type then
      appendToExistingMessage s m
    else
      createNewMessage s m
  { s1 with renderedMessages := insert i s1.renderedMessages
            revealLog := s1.revealLog ++ [i] }

/-- `showMessageForSeek(message, index)`: identical state effect to
`showMessage`; the only source difference is the suppressed animation. -/
def showMessageForSeek (s : PlayerState) (m : Message) (i : ℕ) : PlayerState :=
  let s1 :=
    if s.lastMessageElement = true ∧ s.lastMessageType = some m.type then
      appendToExistingMessageForSeek s m
    else
      createNewMessage s m
  { s1 with renderedMessages := insert i s1.renderedMessages
            revealLog := s1.revealLog ++ [i] }

/-- `showTag(tagData)`: append the tag badge; the container is made visible
only when `renderedTags.size === 1` at call time (the caller adds the index
to `renderedTags` after this call returns). -/
def showTag (s : PlayerState) (tagData : TagData) : PlayerState :=
  let s1 := { s with tagsContent := s.tagsContent ++ [tagData] }
  if s1.renderedTags.card = 1 then { s1 with tagsVisible := true } else s1

/-- `showTagForSeek(tagData, index)`: append the badge with no visibility
side effect (the seek path shows the container afterwards). -/
def showTagForSeek (s : PlayerState) (tagData : TagData) : PlayerState :=
  { s with tagsContent := s.tagsContent ++ [tagData] }

/-- The `conversation.forEach((message, index) => ...)` body of
`updateMessages`, with the running index made explicit. -/
def messagesPass (t : ℚ) : ℕ → List Message → PlayerState → PlayerState
  | _, [], s => s
  | i, m :: rest, s =>
      messagesPass t (i + 1) rest
        (if t ≥ m.timestamp ∧ i ∉ s.renderedMessages then showMessage s m i else s)

/-- The `currentTabTriggers.forEach((trigger, index) => ...)` body of
`updateTags`: reveal each due, not-yet-rendered tag, adding its index to
`renderedTags` after `showTag` returns. -/
def tagsPass (t : ℚ) : ℕ → List TagTrigger → PlayerState → PlayerState
  | _, [], s => s
  | i, trig :: rest, s =>
      tagsPass t (i + 1) rest
        (if t ≥ trig.timestamp ∧ i ∉ s.renderedTags then
          let s1 := showTag s trig.tag
          { s1 with renderedTags := insert i s1.renderedTags
                    tagLog := s1.tagLog ++ [i] }
        else s)

/-- `updateTags(currentTime)`. -/
def updateTags (t : ℚ) (s : PlayerState) : PlayerState :=
  tagsPass t 0 s.currentTabTriggers s

/-- `updateMessages()`: bail out when ended, throttle to one pass per 16ms,
then scan messages and tags against the current audio time. -/
def updateMessages (now : ℚ) (s : PlayerState) : PlayerState :=
  if s.hasEnded = true then s
  else if now - s.lastRenderTime < 16 then s
  else
    let t := s.audioCurrentTime
    let s1 := { s with lastRenderTime := now }
    let s2 := messagesPass t 0 s1.conversation s1
    updateTags t s2

/-- `updateProgress()`. -/
def updateProgress (s : PlayerState) : PlayerState :=
  { s with progressWidth := s.audioCurrentTime / s.duration * 100
           currentTimeLabel := formatTime s.audioCurrentTime }

/-- `pause()`: stop the media element and cancel the animation loop. -/
def pause (s : PlayerState) : PlayerState :=
  { s with audioPaused := true, animationFrameId := false }

/-- `play()`: start the media element, clear `hasEnded`, start the loop. -/
def play (s : PlayerState) : PlayerState :=
  { s with audioPaused := false, hasEnded := false, animationFrameId := true }

/-- `handleAudioEnd()`: mark ended, pause, pin the progress display to 100%. -/
def handleAudioEnd (s : PlayerState) : PlayerState :=
  let s1 := pause { s with hasEnded := true }
  { s1 with progressWidth := 100, currentTimeLabel := formatTime s1.duration }

/-- The message-pass section of `seekToTime` (`forEach` with the running
index explicit; no `renderedMessages` guard in the source). -/
def seekMsgPass (t : ℚ) : ℕ → List Message → PlayerState → PlayerState
  | _, [], s => s
  | i, m :: rest, s =>
      seekMsgPass t (i + 1) rest
        (if t ≥ m.timestamp then showMessageForSeek s m i else s)

/-- The tag-pass section of `seekToTime`. -/
def seekTagPass (t : ℚ) : ℕ → List TagTrigger → PlayerState → PlayerState
  | _, [], s => s
  | i, trig :: rest, s =>
      seekTagPass t (i + 1) rest
        (if t ≥ trig.timestamp then
          let s1 := showTagForSeek s trig.tag
          { s1 with renderedTags := insert i s1.renderedTags
                    tagLog := s1.tagLog ++ [i] }
        else s)

/-- `seekToTime(time)`: set the media time, clear the ended flag, tear down
and rebuild the transcript and tag panel from scratch, then refresh the
progress display. -/
def seekToTime (t : ℚ) (s : PlayerState) : PlayerState :=
  let s1 := { s with audioCurrentTime := t
                     hasEnded := false
                     blocks := []
                     renderedMessages := (∅ : Finset ℕ)
                     renderedTags := (∅ : Finset ℕ)
                     tagsContent := []
                     lastMessageElement := false
                     lastMessageType := none }
  let s2 := seekMsgPass t 0 s1.conversation s1
  let s3 := seekTagPass t 0 s2.currentTabTriggers s2
  let s4 := if 0 < s3.renderedTags.card then { s3 with tagsVisible := true } else s3
  updateProgress s4

/-- `restartConversation()`. -/
def restartConversation (s : PlayerState) : PlayerState :=
  let s1 := pause s
  { s1 with audioCurrentTime := 0
            hasEnded := false
            blocks := []
            renderedMessages := (∅ : Finset ℕ)
            renderedTags := (∅ : Finset ℕ)
            progressWidth := 0
            currentTimeLabel := "0:00"
            tagsContent := []
            tagsVisible := false
            lastMessageElement := false
            lastMessageType := none }

/-- `togglePlayPause()`. -/
def togglePlayPause (s : PlayerState) : PlayerState :=
  if s.hasEnded = true then play (restartConversation s)
  else if s.audioPaused = true then play s
  else pause s

/-- The `timeupdate` listener installed by `setupAudio`. The listener body
runs only while not dragging; `scheduleMessageUpdate` defers the
`updateMessages` call to the next animation frame (and only schedules one
when the loop is not already running), so a deferred call executes after the
synchronous end-of-media check of the same tick — that ordering is kept
here. -/
def onTimeUpdate (now : ℚ) (s : PlayerState) : PlayerState :=
  if s.isDragging = true then s
  else
    let s1 := updateProgress s
    let wasScheduled := s1.animationFrameId = false
    let s2 :=
      if s1.audioCurrentTime ≥ s1.duration - 1 / 10 ∧ 0 < s1.duration ∧
          s1.hasEnded = false then
        handleAudioEnd s1
      else s1
    if wasScheduled then updateMessages now s2 else s2

/-- `handleDrag(e)`: `pos` stands for `(clientX - rect.left) / rect.width`;
only the progress preview follows the pointer. -/
def handleDrag (pos : ℚ) (s : PlayerState) : PlayerState :=
  let percentage := max 0 (min 1 pos)
  { s with progressWidth := percentage * 100
           currentTimeLabel := formatTime (percentage * s.duration) }

/-- `handleDragEnd(e)`: one seek to the released position. -/
def handleDragEnd (pos : ℚ) (s : PlayerState) : PlayerState :=
  let percentage := max 0 (min 1 pos)
  seekToTime (percentage * s.duration) s

/-- The document `mousemove` listener. -/
def onMouseMove (pos : ℚ) (s : PlayerState) : PlayerState :=
  if s.isDragging = true then handleDrag pos s else s

/-- The document `mouseup` listener: clear the drag flag, then perform the
single release seek. -/
def onMouseUp (pos : ℚ) (s : PlayerState) : PlayerState :=
  if s.isDragging = true then handleDragEnd pos { s with isDragging := false }
  else s

/-- The scrubber `mousedown` listener. -/
def onScrubberMouseDown (s : PlayerState) : PlayerState :=
  { s with isDragging := true }

/-- `switchConversation(newConversation, newAudioSrc, tabId)`: pause, swap
the track data, pick the tab triggers (falling back to tab1), replace the
audio element, and reset the whole display state. `duration` keeps its old
value until the new metadata loads, exactly as in the source. -/
def switchConversation (newConversation : List Message) (newAudioSrc : String)
    (tabId : String) (s : PlayerState) : PlayerState :=
  let s1 := pause s
  { s1 with conversation := newConversation
            audioSrc := newAudioSrc
            hasEnded := false
            currentTabTriggers :=
              ((s1.tagTriggersTable.lookup tabId).getD
                ((s1.tagTriggersTable.lookup "tab1").getD []))
            audioCurrentTime := 0
            audioPaused := true
            blocks := []
            renderedMessages := (∅ : Finset ℕ)
            renderedTags := (∅ : Finset ℕ)
            tagsContent := []
            tagsVisible := false
            lastMessageElement := false
            lastMessageType := none
            progressWidth := 0
            currentTimeLabel := "0:00"
            totalTimeLabel := "0:00" }

/-- The `loadedmetadata` listener. -/
def onLoadedMetadata (d : ℚ) (s : PlayerState) : PlayerState :=
  { s with duration := d, totalTimeLabel := formatTime d }

/-- Environment events that can occur during forward playback (no user seek,
restart or track switch): a media `timeupdate` at media time `t` and wall
clock `now`, one animation-frame tick of the reveal loop, and the media
`ended` event. The media clock advancing is folded into the event. -/
inductive PlaybackEvent where
  | timeUpdate : ℚ → ℚ → PlaybackEvent
  | animFrame : ℚ → ℚ → PlaybackEvent
  | audioEnded : PlaybackEvent
  deriving DecidableEq, Repr

/-- One forward-playback step: dispatch a `PlaybackEvent` against the
corresponding source handler (the animation-frame tick runs `updateMessages`
only while the loop is scheduled). -/
def forwardStep (s : PlayerState) (e : PlaybackEvent) : PlayerState :=
  match e with
  | .timeUpdate t now => onTimeUpdate now { s with audioCurrentTime := t }
  | .animFrame t now =>
      if s.animationFrameId = true then
        updateMessages now { s with audioCurrentTime := t }
      else s
  | .audioEnded => handleAudioEnd s

/-- Sampling the incremental path at a list of (media time, wall clock)
pairs: each sample sets the media clock and runs one `updateMessages`. -/
def processSamples (samples : List (ℚ × ℚ)) (s : PlayerState) : PlayerState :=
  samples.foldl (fun st p => updateMessages p.2 { st with audioCurrentTime := p.1 }) s

/-- A driver that feeds a list of messages through successive `showMessage`
calls (the "sequence of reveals" of the grouping claim), with the running
index explicit. -/
def revealSeq : ℕ → List Message → PlayerState → PlayerState
  | _, [], s => s
  | i, m :: rest, s => revealSeq (i + 1) rest (showMessage s m i)

/-- Specification-side description of the full-rebuild pass: the indexed
messages with `timestamp ≤ t`, in input order, starting at index `i`. -/
def dueAllFrom (t : ℚ) : ℕ → List Message → List (ℕ × Message)
  | _, [] => []
  | i, m :: rest =>
      if t ≥ m.timestamp then (i, m) :: dueAllFrom t (i + 1) rest
      else dueAllFrom t (i + 1) rest

/-- Specification-side description of the incremental pass: the indexed
messages with `timestamp ≤ t` whose index is not yet revealed, in input
order, starting at index `i`. -/
def dueFrom (t : ℚ) (revealed : Finset ℕ) : ℕ → List Message → List (ℕ × Message)
  | _, [] => []
  | i, m :: rest =>
      if t ≥ m.timestamp ∧ i ∉ revealed then (i, m) :: dueFrom t revealed (i + 1) rest
      else dueFrom t revealed (i + 1) rest

/-- The timestamps of the messages recorded in the reveal log, in emission
order. -/
def emittedTimestamps (s : PlayerState) : List ℚ :=
  s.revealLog.filterMap fun i => (s.conversation.get? i).map Message.timestamp

/-- A minimal trigger table for the concrete states below. -/
def demoTable : List (String × List TagTrigger) := [("tab1", [])]

/-- The grouping scenario of the spec: AI at 0, AI at 1, USER at 2, AI at 3. -/
def c4Demo : List Message :=
  [ { type := "ai", text := "a0", timestamp := 0 },
    { type := "ai", text := "a1", timestamp := 1 },
    { type := "user", text := "u2", timestamp := 2 },
    { type := "ai", text := "a3", timestamp := 3 } ]

/-- Fresh player used as reset starting point for the grouping scenario. -/
def c4Init : PlayerState := initState c4Demo "demo.mp3" demoTable []

/-- A conversation whose timestamps are out of order: index 0 at 5s, index 1
at 0s. -/
def c2State : PlayerState :=
  initState
    [ { type := "ai", text := "late", timestamp := 5 },
      { type := "ai", text := "early", timestamp := 0 } ]
    "demo.mp3" demoTable []

/-- A running player with two tag triggers (0.5s and 2s) and the media clock
at 1s: exactly the first trigger is due. -/
def c5State : PlayerState :=
  { initState [] "demo.mp3" demoTable
      [ { timestamp := 1 / 2
          tag := { type := "greeting", label := "Custom Greeting", description := "g" } },
        { timestamp := 2
          tag := { type := "empathy", label := "AI Empathy", description := "e" } } ]
    with audioCurrentTime := 1, audioPaused := false, animationFrameId := true }

/-- A playing player at 9.95s of a 10s track: inside the end-of-media
threshold `duration - 0.1` but strictly before `duration`. -/
def c6State : PlayerState :=
  { initState [] "demo.mp3" demoTable [] with
      duration := 10, audioCurrentTime := 199 / 20,
      audioPaused := false, animationFrameId := true }

/-- A player mid-drag while playback continues: the reveal loop is running,
the media clock is at 5s, and the message at 0s is not yet revealed. -/
def c9State : PlayerState :=
  { initState [ { type := "ai", text := "Hi", timestamp := 0 } ] "demo.mp3" demoTable [] with
      isDragging := true, animationFrameId := true,
      audioCurrentTime := 5, audioPaused := false }

/-- The session active before the track switch of the error-handling claim. -/
def c3PreState : PlayerState :=
  initState [ { type := "ai", text := "old", timestamp := 0 } ] "old.mp3" demoTable []

/-- A track configuration with a negative timestamp. -/
def c3BadConversation : List Message :=
  [ { type := "ai", text := "bad", timestamp := -3 } ]

/-! ### Projection lemmas for the single-event reveal operations -/

@[simp] theorem showMessage_renderedMessages (s : PlayerState) (m : Message) (i : ℕ) :
    (showMessage s m i).renderedMessages = insert i s.renderedMessages := by
  unfold showMessage appendToExistingMessage createNewMessage
  split <;> rfl

@[simp] theorem showMessage_revealLog (s : PlayerState) (m : Message) (i : ℕ) :
    (showMessage s m i).revealLog = s.revealLog ++ [i] := by
  unfold showMessage appendToExistingMessage createNewMessage
  split <;> rfl

@[simp] theorem showMessage_conversation (s : PlayerState) (m : Message) (i : ℕ) :
    (showMessage s m i).conversation = s.conversation := by
  unfold showMessage appendToExistingMessage createNewMessage
  split <;> rfl

@[simp] theorem showMessage_currentTabTriggers (s : PlayerState) (m : Message) (i : ℕ) :
    (showMessage s m i).currentTabTriggers = s.currentTabTriggers := by
  unfold showMessage appendToExistingMessage createNewMessage
  split <;> rfl

@[simp] theorem showMessage_renderedTags (s : PlayerState) (m : Message) (i : ℕ) :
    (showMessage s m i).renderedTags = s.renderedTags := by
  unfold showMessage appendToExistingMessage createNewMessage
  split <;> rfl

@[simp] theorem showMessage_tagLog (s : PlayerState) (m : Message) (i : ℕ) :
    (showMessage s m i).tagLog = s.tagLog := by
  unfold showMessage appendToExistingMessage createNewMessage
  split <;> rfl

@[simp] theorem showMessage_hasEnded (s : PlayerState) (m : Message) (i : ℕ) :
    (showMessage s m i).hasEnded = s.hasEnded := by
  unfold showMessage appendToExistingMessage createNewMessage
  split <;> rfl

@[simp] theorem showMessage_audioCurrentTime (s : PlayerState) (m : Message) (i : ℕ) :
    (showMessage s m i).audioCurrentTime = s.audioCurrentTime := by
  unfold showMessage appendToExistingMessage createNewMessage
  split <;> rfl

@[simp] theorem showMessageForSeek_renderedMessages (s : PlayerState) (m : Message) (i : ℕ) :
    (showMessageForSeek s m i).renderedMessages = insert i s.renderedMessages := by
  unfold showMessageForSeek appendToExistingMessageForSeek createNewMessage
  split <;> rfl

@[simp] theorem showMessageForSeek_revealLog (s : PlayerState) (m : Message) (i : ℕ) :
    (showMessageForSeek s m i).revealLog = s.revealLog ++ [i] := by
  unfold showMessageForSeek appendToExistingMessageForSeek createNewMessage
  split <;> rfl

@[simp] theorem showMessageForSeek_conversation (s : PlayerState) (m : Message) (i : ℕ) :
    (showMessageForSeek s m i).conversation = s.conversation := by
  unfold showMessageForSeek appendToExistingMessageForSeek createNewMessage
  split <;> rfl

@[simp] theorem showMessageForSeek_currentTabTriggers (s : PlayerState) (m : Message) (i : ℕ) :
    (showMessageForSeek s m i).currentTabTriggers = s.currentTabTriggers := by
  unfold showMessageForSeek appendToExistingMessageForSeek createNewMessage
  split <;> rfl

@[simp] theorem showMessageForSeek_renderedTags (s : PlayerState) (m : Message) (i : ℕ) :
    (showMessageForSeek s m i).renderedTags = s.renderedTags := by
  unfold showMessageForSeek appendToExistingMessageForSeek createNewMessage
  split <;> rfl

@[simp] theorem showTag_renderedMessages (s : PlayerState) (d : TagData) :
    (showTag s d).renderedMessages = s.renderedMessages := by
  unfold showTag
  dsimp only
  split <;> rfl

@[simp] theorem showTag_revealLog (s : PlayerState) (d : TagData) :
    (showTag s d).revealLog = s.revealLog := by
  unfold showTag
  dsimp only
  split <;> rfl

@[simp] theorem showTag_renderedTags (s : PlayerState) (d : TagData) :
    (showTag s d).renderedTags = s.renderedTags := by
  unfold showTag
  dsimp only
  split <;> rfl

@[simp] theorem showTag_conversation (s : PlayerState) (d : TagData) :
    (showTag s d).conversation = s.conversation := by
  unfold showTag
  dsimp only
  split <;> rfl

/-! ### Preservation lemmas for the tag passes -/

theorem tagsPass_renderedMessages (t : ℚ) (l : List TagTrigger) :
    ∀ (i : ℕ) (s : PlayerState), (tagsPass t i l s).renderedMessages = s.renderedMessages := by
  induction l with
  | nil => intro i s; rfl
  | cons trig rest ih =>
      intro i s
      show (tagsPass t (i + 1) rest _).renderedMessages = _
      rw [ih]
      split <;> simp

theorem tagsPass_revealLog (t : ℚ) (l : List TagTrigger) :
    ∀ (i : ℕ) (s : PlayerState), (tagsPass t i l s).revealLog = s.revealLog := by
  induction l with
  | nil => intro i s; rfl
  | cons trig rest ih =>
      intro i s
      show (tagsPass t (i + 1) rest _).revealLog = _
      rw [ih]
      split <;> simp

theorem tagsPass_conversation (t : ℚ) (l : List TagTrigger) :
    ∀ (i : ℕ) (s : PlayerState), (tagsPass t i l s).conversation = s.conversation := by
  induction l with
  | nil => intro i s; rfl
  | cons trig rest ih =>
      intro i s
      show (tagsPass t (i + 1) rest _).conversation = _
      rw [ih]
      split <;> simp

theorem seekTagPass_renderedMessages (t : ℚ) (l : List TagTrigger) :
    ∀ (i : ℕ) (s : PlayerState), (seekTagPass t i l s).renderedMessages = s.renderedMessages := by
  induction l with
  | nil => intro i s; rfl
  | cons trig rest ih =>
      intro i s
      show (seekTagPass t (i + 1) rest _).renderedMessages = _
      rw [ih]
      split <;> rfl

theorem seekTagPass_revealLog (t : ℚ) (l : List TagTrigger) :
    ∀ (i : ℕ) (s : PlayerState), (seekTagPass t i l s).revealLog = s.revealLog := by
  induction l with
  | nil => intro i s; rfl
  | cons trig rest ih =>
      intro i s
      show (seekTagPass t (i + 1) rest _).revealLog = _
      rw [ih]
      split <;> rfl

theorem seekTagPass_conversation (t : ℚ) (l : List TagTrigger) :
    ∀ (i : ℕ) (s : PlayerState), (seekTagPass t i l s).conversation = s.conversation := by
  induction l with
  | nil => intro i s; rfl
  | cons trig rest ih =>
      intro i s
      show (seekTagPass t (i + 1) rest _).conversation = _
      rw [ih]
      split <;> rfl

/-! ### Characterization of the incremental message pass -/

theorem messagesPass_renderedMessages_subset (t : ℚ) (l : List Message) :
    ∀ (i : ℕ) (s : PlayerState),
      s.renderedMessages ⊆ (messagesPass t i l s).renderedMessages := by
  induction l with
  | nil => intro i s; exact Finset.Subset.refl _
  | cons m rest ih =>
      intro i s
      show s.renderedMessages ⊆ (messagesPass t (i + 1) rest _).renderedMessages
      refine Finset.Subset.trans ?_ (ih (i + 1) _)
      split
      · rw [showMessage_renderedMessages]
        exact Finset.subset_insert _ _
      · exact Finset.Subset.refl _

theorem messagesPass_conversation (t : ℚ) (l : List Message) :
    ∀ (i : ℕ) (s : PlayerState), (messagesPass t i l s).conversation = s.conversation := by
  induction l with
  | nil => intro i s; rfl
  | cons m rest ih =>
      intro i s
      show (messagesPass t (i + 1) rest _).conversation = _
      rw [ih]
      split <;> simp

theorem messagesPass_currentTabTriggers (t : ℚ) (l : List Message) :
    ∀ (i : ℕ) (s : PlayerState),
      (messagesPass t i l s).currentTabTriggers = s.currentTabTriggers := by
  induction l with
  | nil => intro i s; rfl
  | cons m rest ih =>
      intro i s
      show (messagesPass t (i + 1) rest _).currentTabTriggers = _
      rw [ih]
      split <;> simp

theorem messagesPass_renderedTags (t : ℚ) (l : List Message) :
    ∀ (i : ℕ) (s : PlayerState), (messagesPass t i l s).renderedTags = s.renderedTags := by
  induction l with
  | nil => intro i s; rfl
  | cons m rest ih =>
      intro i s
      show (messagesPass t (i + 1) rest _).renderedTags = _
      rw [ih]
      split <;> simp

/-- Inserting an index below the scan position does not change the due list
of the remaining scan. -/
theorem dueFrom_insert_of_lt (t : ℚ) (revealed : Finset ℕ) (a : ℕ) (l : List Message) :
    ∀ i : ℕ, a < i → dueFrom t (insert a revealed) i l = dueFrom t revealed i l := by
  induction l with
  | nil => intro i _; rfl
  | cons m rest ih =>
      intro i hai
      have hne : ¬ (i = a) := by omega
      simp only [dueFrom, Finset.mem_insert, hne, false_or]
      rw [ih (i + 1) (by omega)]

/-- The incremental pass emits exactly the due, not-yet-revealed messages,
in input order. -/
theorem messagesPass_revealLog (t : ℚ) (l : List Message) :
    ∀ (i : ℕ) (s : PlayerState),
      (messagesPass t i l s).revealLog =
        s.revealLog ++ (dueFrom t s.renderedMessages i l).map Prod.fst := by
  induction l with
  | nil => intro i s; simp [messagesPass, dueFrom]
  | cons m rest ih =>
      intro i s
      show (messagesPass t (i + 1) rest _).revealLog = _
      by_cases h : t ≥ m.timestamp ∧ i ∉ s.renderedMessages
      · rw [if_pos h, ih, showMessage_revealLog, showMessage_renderedMessages,
            dueFrom_insert_of_lt t s.renderedMessages i rest (i + 1) (Nat.lt_succ_self i)]
        simp only [dueFrom, if_pos h, List.map_cons, List.append_assoc,
          List.singleton_append]
      · rw [if_neg h, ih]
        simp only [dueFrom, if_neg h]

/-- The timestamps of the incremental due list form a sublist of the input
timestamps. -/
theorem dueFrom_timestamps_sublist (t : ℚ) (revealed : Finset ℕ) (l : List Message) :
    ∀ i : ℕ,
      ((dueFrom t revealed i l).map fun p => p.2.timestamp).Sublist
        (l.map Message.timestamp) := by
  induction l with
  | nil => intro i; simp [dueFrom]
  | cons m rest ih =>
      intro i
      by_cases h : t ≥ m.timestamp ∧ i ∉ revealed
      · simpa only [dueFrom, if_pos h, List.map_cons] using (ih (i + 1)).cons₂ m.timestamp
      · simpa only [dueFrom, if_neg h, List.map_cons] using (ih (i + 1)).cons m.timestamp

/-! ### Characterization of the full-rebuild (seek) message pass -/

theorem seekMsgPass_conversation (t : ℚ) (l : List Message) :
    ∀ (i : ℕ) (s : PlayerState), (seekMsgPass t i l s).conversation = s.conversation := by
  induction l with
  | nil => intro i s; rfl
  | cons m rest ih =>
      intro i s
      show (seekMsgPass t (i + 1) rest _).conversation = _
      rw [ih]
      split <;> simp

theorem seekMsgPass_currentTabTriggers (t : ℚ) (l : List Message) :
    ∀ (i : ℕ) (s : PlayerState),
      (seekMsgPass t i l s).currentTabTriggers = s.currentTabTriggers := by
  induction l with
  | nil => intro i s; rfl
  | cons m rest ih =>
      intro i s
      show (seekMsgPass t (i + 1) rest _).currentTabTriggers = _
      rw [ih]
      split <;> simp

theorem seekMsgPass_renderedTags (t : ℚ) (l : List Message) :
    ∀ (i : ℕ) (s : PlayerState), (seekMsgPass t i l s).renderedTags = s.renderedTags := by
  induction l with
  | nil => intro i s; rfl
  | cons m rest ih =>
      intro i s
      show (seekMsgPass t (i + 1) rest _).renderedTags = _
      rw [ih]
      split <;> simp

/-- The seek pass emits exactly the due messages, in input order. -/
theorem seekMsgPass_revealLog (t : ℚ) (l : List Message) :
    ∀ (i : ℕ) (s : PlayerState),
      (seekMsgPass t i l s).revealLog =
        s.revealLog ++ (dueAllFrom t i l).map Prod.fst := by
  induction l with
  | nil => intro i s; simp [seekMsgPass, dueAllFrom]
  | cons m rest ih =>
      intro i s
      show (seekMsgPass t (i + 1) rest _).revealLog = _
      by_cases h : t ≥ m.timestamp
      · rw [if_pos h, ih, showMessageForSeek_revealLog]
        simp only [dueAllFrom, if_pos h, List.map_cons, List.append_assoc,
          List.singleton_append]
      · rw [if_neg h, ih]
        simp only [dueAllFrom, if_neg h]

/-- The timestamps of the full due list form a sublist of the input
timestamps. -/
theorem dueAllFrom_timestamps_sublist (t : ℚ) (l : List Message) :
    ∀ i : ℕ,
      ((dueAllFrom t i l).map fun p => p.2.timestamp).Sublist
        (l.map Message.timestamp) := by
  induction l with
  | nil => intro i; simp [dueAllFrom]
  | cons m rest ih =>
      intro i
      by_cases h : t ≥ m.timestamp
      · simpa only [dueAllFrom, if_pos h, List.map_cons] using (ih (i + 1)).cons₂ m.timestamp
      · simpa only [dueAllFrom, if_neg h, List.map_cons] using (ih (i + 1)).cons m.timestamp

/-- Membership in the reveal set after a seek pass: an index is rendered iff
it was already rendered or it points at a message of the scanned suffix
whose timestamp is due. -/
theorem seekMsgPass_mem (t : ℚ) (l : List Message) :
    ∀ (i : ℕ) (s : PlayerState) (j : ℕ),
      j ∈ (seekMsgPass t i l s).renderedMessages ↔
        j ∈ s.renderedMessages ∨
          ∃ k m, l.get? k = some m ∧ j = i + k ∧ m.timestamp ≤ t := by
  induction l with
  | nil =>
      intro i s j
      simp [seekMsgPass]
  | cons m rest ih =>
      intro i s j
      show j ∈ (seekMsgPass t (i + 1) rest _).renderedMessages ↔ _
      rw [ih]
      by_cases h : t ≥ m.timestamp
      · rw [if_pos h, showMessageForSeek_renderedMessages]
        constructor
        · rintro (hj | ⟨k, m1, hk, hj, hts⟩)
          · rcases Finset.mem_insert.mp hj with hj | hj
            · exact Or.inr ⟨0, m, by simp, by omega, h⟩
            · exact Or.inl hj
          · exact Or.inr ⟨k + 1, m1, by simpa using hk, by omega, hts⟩
        · rintro (hj | ⟨k, m1, hk, hj, hts⟩)
          · exact Or.inl (Finset.mem_insert_of_mem hj)
          · cases k with
            | zero =>
                simp only [List.get?_cons_zero, Option.some_inj] at hk
                exact Or.inl (by simp [hj, Finset.mem_insert])
            | succ k1 =>
                simp only [List.get?_cons_succ] at hk
                exact Or.inr ⟨k1, m1, hk, by omega, hts⟩
      · rw [if_neg h]
        constructor
        · rintro (hj | ⟨k, m1, hk, hj, hts⟩)
          · exact Or.inl hj
          · exact Or.inr ⟨k + 1, m1, by simpa using hk, by omega, hts⟩
        · rintro (hj | ⟨k, m1, hk, hj, hts⟩)
          · exact Or.inl hj
          · cases k with
            | zero =>
                simp only [List.get?_cons_zero, Option.some_inj] at hk
                subst hk
                exact absurd hts h
            | succ k1 =>
                simp only [List.get?_cons_succ] at hk
                exact Or.inr ⟨k1, m1, hk, by omega, hts⟩

/-! ### Composition lemmas for the top-level operations -/

@[simp] theorem updateProgress_renderedMessages (s : PlayerState) :
    (updateProgress s).renderedMessages = s.renderedMessages := rfl

@[simp] theorem updateProgress_renderedTags (s : PlayerState) :
    (updateProgress s).renderedTags = s.renderedTags := rfl

@[simp] theorem updateProgress_revealLog (s : PlayerState) :
    (updateProgress s).revealLog = s.revealLog := rfl

@[simp] theorem updateProgress_conversation (s : PlayerState) :
    (updateProgress s).conversation = s.conversation := rfl

@[simp] theorem updateProgress_hasEnded (s : PlayerState) :
    (updateProgress s).hasEnded = s.hasEnded := rfl

@[simp] theorem updateProgress_progressWidth (s : PlayerState) :
    (updateProgress s).progressWidth = s.audioCurrentTime / s.duration * 100 := rfl

/-- After a seek to time `t`, an index is in the message Reveal Set iff it
points at a message of the conversation whose timestamp is at most `t`,
whatever was revealed before. -/
theorem seekToTime_renderedMessages_mem (t : ℚ) (s : PlayerState) (j : ℕ) :
    j ∈ (seekToTime t s).renderedMessages ↔
      ∃ m, s.conversation.get? j = some m ∧ m.timestamp ≤ t := by
  unfold seekToTime updateProgress
  dsimp only
  split
  all_goals
    rw [seekTagPass_renderedMessages, seekMsgPass_mem]
    simp only [Finset.not_mem_empty, false_or, zero_add]
    constructor
    · rintro ⟨k, m, hk, rfl, hts⟩
      exact ⟨m, hk, hts⟩
    · rintro ⟨m, hj, hts⟩
      exact ⟨j, m, hj, rfl, hts⟩

/-- The full-rebuild emission of a seek appends exactly the due messages in
input order to the reveal log. -/
theorem seekToTime_revealLog (t : ℚ) (s : PlayerState) :
    (seekToTime t s).revealLog =
      s.revealLog ++ (dueAllFrom t 0 s.conversation).map Prod.fst := by
  unfold seekToTime updateProgress
  dsimp only
  split
  all_goals
    rw [seekTagPass_revealLog, seekMsgPass_revealLog]

theorem seekToTime_conversation (t : ℚ) (s : PlayerState) :
    (seekToTime t s).conversation = s.conversation := by
  unfold seekToTime updateProgress
  dsimp only
  split
  all_goals
    rw [seekTagPass_conversation, seekMsgPass_conversation]

/-- While the ended flag is set, the incremental path returns without doing
anything at all. -/
theorem updateMessages_of_hasEnded (now : ℚ) (s : PlayerState) (h : s.hasEnded = true) :
    updateMessages now s = s := by
  unfold updateMessages
  rw [if_pos h]

/-- One incremental pass can only grow the message Reveal Set. -/
theorem updateMessages_renderedMessages_subset (now : ℚ) (s : PlayerState) :
    s.renderedMessages ⊆ (updateMessages now s).renderedMessages := by
  unfold updateMessages updateTags
  dsimp only
  split
  · exact Finset.Subset.refl _
  split
  · exact Finset.Subset.refl _
  rw [tagsPass_renderedMessages]
  exact messagesPass_renderedMessages_subset s.audioCurrentTime s.conversation 0
    { s with lastRenderTime := now }

/-- The incremental emission of a throttles-passed `updateMessages` call
appends exactly the due, not-yet-revealed messages in input order. -/
theorem updateMessages_revealLog (now : ℚ) (s : PlayerState)
    (h1 : s.hasEnded = false) (h2 : ¬ now - s.lastRenderTime < 16) :
    (updateMessages now s).revealLog =
      s.revealLog ++
        (dueFrom s.audioCurrentTime s.renderedMessages 0 s.conversation).map Prod.fst := by
  unfold updateMessages updateTags
  dsimp only
  rw [if_neg (by simp [h1]), if_neg h2, tagsPass_revealLog, messagesPass_revealLog]

@[simp] theorem handleAudioEnd_renderedMessages (s : PlayerState) :
    (handleAudioEnd s).renderedMessages = s.renderedMessages := rfl

@[simp] theorem handleAudioEnd_renderedTags (s : PlayerState) :
    (handleAudioEnd s).renderedTags = s.renderedTags := rfl

@[simp] theorem handleAudioEnd_hasEnded (s : PlayerState) :
    (handleAudioEnd s).hasEnded = true := rfl

@[simp] theorem handleAudioEnd_progressWidth (s : PlayerState) :
    (handleAudioEnd s).progressWidth = 100 := rfl

/-- The terminal transition is idempotent on the state. -/
theorem handleAudioEnd_idem (s : PlayerState) :
    handleAudioEnd (handleAudioEnd s) = handleAudioEnd s := rfl

/-- While dragging, the whole `timeupdate` listener body is skipped. -/
theorem onTimeUpdate_of_dragging (now : ℚ) (s : PlayerState) (h : s.isDragging = true) :
    onTimeUpdate now s = s := by
  unfold onTimeUpdate
  rw [if_pos h]

/-- After the end transition has fired, a further `timeupdate` only reruns
`updateProgress`: the end check is skipped and the deferred `updateMessages`
is a no-op. -/
theorem onTimeUpdate_of_ended (now : ℚ) (s : PlayerState)
    (h : s.hasEnded = true) (hd : s.isDragging = false) :
    onTimeUpdate now s = updateProgress s := by
  unfold onTimeUpdate
  rw [if_neg (by simp [hd])]
  dsimp only
  rw [if_neg
    (show ¬((updateProgress s).audioCurrentTime ≥ (updateProgress s).duration - 1 / 10 ∧
        0 < (updateProgress s).duration ∧ (updateProgress s).hasEnded = false) from by
      simp [updateProgress, h])]
  split
  · exact updateMessages_of_hasEnded now (updateProgress s) h
  · rfl

/-- One forward-playback event cannot change the Reveal Sets or clear the
ended flag once the end transition has fired. -/
theorem forwardStep_of_ended (s : PlayerState) (e : PlaybackEvent)
    (h : s.hasEnded = true) :
    (forwardStep s e).renderedMessages = s.renderedMessages ∧
      (forwardStep s e).renderedTags = s.renderedTags ∧
      (forwardStep s e).hasEnded = true := by
  cases e with
  | timeUpdate t now =>
      have heq : forwardStep s (.timeUpdate t now) =
          onTimeUpdate now { s with audioCurrentTime := t } := rfl
      by_cases hd : s.isDragging = true
      · rw [heq, onTimeUpdate_of_dragging now { s with audioCurrentTime := t } hd]
        exact ⟨rfl, rfl, h⟩
      · rw [heq, onTimeUpdate_of_ended now { s with audioCurrentTime := t } h
          (by simpa using hd)]
        exact ⟨rfl, rfl, h⟩
  | animFrame t now =>
      have heq : forwardStep s (.animFrame t now) =
          if s.animationFrameId = true then
            updateMessages now { s with audioCurrentTime := t }
          else s := rfl
      rw [heq]
      split
      · rw [updateMessages_of_hasEnded now { s with audioCurrentTime := t } h]
        exact ⟨rfl, rfl, h⟩
      · exact ⟨rfl, rfl, h⟩
  | audioEnded => exact ⟨rfl, rfl, rfl⟩

/-- No sequence of forward-playback events changes the Reveal Sets once the
ended flag is set. -/
theorem foldl_forwardStep_of_ended (evs : List PlaybackEvent) :
    ∀ s : PlayerState, s.hasEnded = true →
      (evs.foldl forwardStep s).renderedMessages = s.renderedMessages ∧
        (evs.foldl forwardStep s).renderedTags = s.renderedTags ∧
        (evs.foldl forwardStep s).hasEnded = true := by
  induction evs with
  | nil => intro s h; exact ⟨rfl, rfl, h⟩
  | cons e rest ih =>
      intro s h
      have hstep := forwardStep_of_ended s e h
      have hrest := ih (forwardStep s e) hstep.2.2
      exact ⟨hrest.1.trans hstep.1, hrest.2.1.trans hstep.2.1, hrest.2.2⟩

/-! ### Grouping lemmas -/

theorem appendTextToLast_length (l : List Block) (txt : String) :
    (appendTextToLast l txt).length = l.length := by
  induction l with
  | nil => rfl
  | cons b rest ih =>
      cases rest with
      | nil => rfl
      | cons b2 rest2 =>
          show (b :: appendTextToLast (b2 :: rest2) txt).length = _
          simp only [List.length_cons]
          rw [ih]
          simp

/-- A reveal keeps the block count when the grouping cursor matches the
speaker type and increments it otherwise. -/
theorem showMessage_blocks_length (s : PlayerState) (m : Message) (i : ℕ) :
    (showMessage s m i).blocks.length =
      if s.lastMessageElement = true ∧ s.lastMessageType = some m.type then
        s.blocks.length
      else s.blocks.length + 1 := by
  unfold showMessage appendToExistingMessage createNewMessage
  dsimp only
  split
  · exact appendTextToLast_length s.blocks m.text
  · simp

theorem showMessage_lastMessageElement (s : PlayerState) (m : Message) (i : ℕ) :
    (showMessage s m i).lastMessageElement = true := by
  unfold showMessage appendToExistingMessage createNewMessage
  dsimp only
  split
  next h => exact h.1
  next h => rfl

theorem showMessage_lastMessageType (s : PlayerState) (m : Message) (i : ℕ) :
    (showMessage s m i).lastMessageType = some m.type := by
  unfold showMessage appendToExistingMessage createNewMessage
  dsimp only
  split
  next h => exact h.2
  next h => rfl

theorem revealSeq_append (ms : List Message) (m : Message) :
    ∀ (i : ℕ) (s : PlayerState),
      revealSeq i (ms ++ [m]) s = showMessage (revealSeq i ms s) m (i + ms.length) := by
  induction ms with
  | nil => intro i s; simp [revealSeq]
  | cons m1 rest ih =>
      intro i s
      show revealSeq (i + 1) (rest ++ [m]) (showMessage s m1 i) = _
      rw [ih]
      have hlen : i + 1 + rest.length = i + (m1 :: rest).length := by
        simp only [List.length_cons]
        omega
      rw [hlen]
      rfl

/-- After a nonempty sequence of reveals the grouping cursor points at a
block whose type is the type of the last revealed message. -/
theorem revealSeq_cursor :
    ∀ ms : List Message, ms ≠ [] → ∀ (i : ℕ) (s : PlayerState),
      (revealSeq i ms s).lastMessageElement = true ∧
        (revealSeq i ms s).lastMessageType = (ms.getLast?).map Message.type := by
  intro ms
  induction ms with
  | nil => intro hne; exact absurd rfl hne
  | cons m rest ih =>
      intro _ i s
      cases rest with
      | nil =>
          refine ⟨showMessage_lastMessageElement s m i, ?_⟩
          rw [show revealSeq i [m] s = showMessage s m i from rfl,
            showMessage_lastMessageType]
          rfl
      | cons m2 rest2 =>
          have hr := ih (by simp) (i + 1) (showMessage s m i)
          refine ⟨hr.1, ?_⟩
          rw [show revealSeq i (m :: m2 :: rest2) s =
              revealSeq (i + 1) (m2 :: rest2) (showMessage s m i) from rfl,
            hr.2, List.getLast?_cons_cons]

/-- Starting from a reset display, revealing one more message creates a new
block exactly when the previous reveal sequence is empty or ends in a
different speaker type. -/
theorem revealSeq_new_block_iff (s : PlayerState) (hb : s.blocks = [])
    (hl : s.lastMessageElement = false) (ms : List Message) (m : Message) :
    (revealSeq 0 (ms ++ [m]) s).blocks.length = (revealSeq 0 ms s).blocks.length + 1 ↔
      (ms.getLast?).map Message.type ≠ some m.type := by
  rw [revealSeq_append, showMessage_blocks_length]
  cases ms with
  | nil =>
      simp [revealSeq, hl]
  | cons m1 rest =>
      obtain ⟨he, ht⟩ := revealSeq_cursor (m1 :: rest) (by simp) 0 s
      by_cases hc : (((m1 :: rest).getLast?).map Message.type) = some m.type
      · rw [if_pos ⟨he, ht.trans hc⟩]
        simp [hc]
      · rw [if_neg (by rintro ⟨h1, h2⟩; exact hc (ht.symm.trans h2))]
        simp [hc]

/-- The single-sample step of the incremental path can only grow the
message Reveal Set. -/
theorem processSamples_step_subset (s : PlayerState) (p : ℚ × ℚ) :
    s.renderedMessages ⊆
      (updateMessages p.2 { s with audioCurrentTime := p.1 }).renderedMessages :=
  updateMessages_renderedMessages_subset p.2 { s with audioCurrentTime := p.1 }

/-- Processing one more sample of the incremental path can only grow the
message Reveal Set. -/
theorem processSamples_take_subset :
    ∀ (samples : List (ℚ × ℚ)) (n : ℕ) (s : PlayerState),
      (processSamples (samples.take n) s).renderedMessages ⊆
        (processSamples (samples.take (n + 1)) s).renderedMessages := by
  intro samples
  induction samples with
  | nil =>
      intro n s
      rw [List.take_nil, List.take_nil]
  | cons p rest ih =>
      intro n s
      cases n with
      | zero => exact processSamples_step_subset s p
      | succ n1 =>
          exact ih n1 (updateMessages p.2 { s with audioCurrentTime := p.1 })

/-! ## Claim theorems -/

/-- C1: for every time `t` and every prior reveal history, `seekToTime t`
leaves the message Reveal Set equal exactly to the set of indices whose
utterance timestamp is at most `t` — no gaps, no extras — independent of the
pre-seek state `s`. -/
theorem c1_seek_reveal_set (s : PlayerState) (t : ℚ) (j : ℕ) :
    j ∈ (seekToTime t s).renderedMessages ↔
      ∃ m, s.conversation.get? j = some m ∧ m.timestamp ≤ t :=
  seekToTime_renderedMessages_mem t s j

/-- C2 is false as stated: on the out-of-order conversation of `c2State`
(index 0 at 5s, index 1 at 0s), the full rebuild of `seekToTime 10` emits
index 0 before index 1, so the emitted timestamp sequence is [5, 0] — not
ascending. The engine scans in input order; it does not sort. -/
theorem c2_counterexample :
    (seekToTime 10 c2State).revealLog = [0, 1] ∧
      emittedTimestamps (seekToTime 10 c2State) = [5, 0] ∧
      ¬ List.Sorted (· ≤ ·) (emittedTimestamps (seekToTime 10 c2State)) := by
  decide

/-- C2 (amended): each reveal pass — the full rebuild of `seekToTime` and a
throttle-passed `updateMessages` — emits the due events in input (index)
order, with no internal sort; consequently the emission is in ascending
timestamp order exactly when the input list is already sorted by
timestamp. -/
theorem c2_amended_order (s : PlayerState) (t now : ℚ)
    (hsorted : List.Sorted (· ≤ ·) (s.conversation.map Message.timestamp))
    (h1 : s.hasEnded = false) (h2 : ¬ now - s.lastRenderTime < 16) :
    ((seekToTime t s).revealLog =
        s.revealLog ++ (dueAllFrom t 0 s.conversation).map Prod.fst) ∧
      List.Sorted (· ≤ ·) ((dueAllFrom t 0 s.conversation).map fun p => p.2.timestamp) ∧
      ((updateMessages now s).revealLog =
        s.revealLog ++
          (dueFrom s.audioCurrentTime s.renderedMessages 0 s.conversation).map Prod.fst) ∧
      List.Sorted (· ≤ ·)
        ((dueFrom s.audioCurrentTime s.renderedMessages 0 s.conversation).map
          fun p => p.2.timestamp) :=
  ⟨seekToTime_revealLog t s,
   List.Pairwise.sublist (dueAllFrom_timestamps_sublist t s.conversation 0) hsorted,
   updateMessages_revealLog now s h1 h2,
   List.Pairwise.sublist
     (dueFrom_timestamps_sublist s.audioCurrentTime s.renderedMessages s.conversation 0)
     hsorted⟩

/-- Witness for the amended C2 at a concrete sorted conversation. -/
theorem c2_amended_order_witness :
    (List.Sorted (· ≤ ·) (c4Init.conversation.map Message.timestamp) ∧
        c4Init.hasEnded = false ∧ ¬ ((16 : ℚ) - c4Init.lastRenderTime < 16)) ∧
      (seekToTime 2 c4Init).revealLog =
        c4Init.revealLog ++ (dueAllFrom 2 0 c4Init.conversation).map Prod.fst :=
  ⟨⟨by decide, rfl, by norm_num [c4Init, initState]⟩,
   (c2_amended_order c4Init 2 16 (by decide) rfl (by norm_num [c4Init, initState])).1⟩

/-- C3 is false as stated: switching to a configuration containing a
negative timestamp raises nothing and is not aborted — the conversation is
replaced wholesale and the previous session does not remain active. -/
theorem c3_counterexample :
    (∃ m ∈ c3BadConversation, m.timestamp < 0) ∧
      (switchConversation c3BadConversation "bad.mp3" "tab1" c3PreState).conversation =
        c3BadConversation ∧
      (switchConversation c3BadConversation "bad.mp3" "tab1" c3PreState).conversation ≠
        c3PreState.conversation ∧
      (switchConversation c3BadConversation "bad.mp3" "tab1" c3PreState).audioSrc =
        "bad.mp3" := by
  decide

/-- C3 (amended): `switchConversation` performs no timestamp validation and
can never fail: for every configuration — including ones with negative or
missing timestamps — the switch completes, replacing the active conversation
and audio source and resetting the reveal state. -/
theorem c3_amended_no_validation (newConversation : List Message) (newAudioSrc : String)
    (tabId : String) (s : PlayerState) :
    (switchConversation newConversation newAudioSrc tabId s).conversation =
        newConversation ∧
      (switchConversation newConversation newAudioSrc tabId s).audioSrc = newAudioSrc ∧
      (switchConversation newConversation newAudioSrc tabId s).hasEnded = false ∧
      (switchConversation newConversation newAudioSrc tabId s).renderedMessages = ∅ :=
  ⟨rfl, rfl, rfl, rfl⟩

/-- C4: starting from a reset display, revealing one more utterance creates
a new visual block iff its speaker type differs from the type of the last
revealed utterance or nothing was revealed yet; revealing AI@0, AI@1,
USER@2, AI@3 yields exactly the blocks [ai with 2 texts, user with 1,
ai with 1]. -/
theorem c4_grouping_blocks (s : PlayerState) (ms : List Message) (m : Message)
    (hb : s.blocks = []) (hl : s.lastMessageElement = false) :
    ((revealSeq 0 (ms ++ [m]) s).blocks.length =
        (revealSeq 0 ms s).blocks.length + 1 ↔
      (ms.getLast?).map Message.type ≠ some m.type) ∧
      (revealSeq 0 c4Demo c4Init).blocks.map (fun b => (b.type, b.texts.length)) =
        [("ai", 2), ("user", 1), ("ai", 1)] :=
  ⟨revealSeq_new_block_iff s hb hl ms m, by
    norm_num +decide [c4Demo, c4Init, initState, revealSeq, showMessage, createNewMessage,
      appendToExistingMessage, appendTextToLast]⟩

/-- Witness for C4 at the reset initial state. -/
theorem c4_grouping_blocks_witness :
    (c4Init.blocks = [] ∧ c4Init.lastMessageElement = false) ∧
      (revealSeq 0 c4Demo c4Init).blocks.map (fun b => (b.type, b.texts.length)) =
        [("ai", 2), ("user", 1), ("ai", 1)] :=
  ⟨⟨rfl, rfl⟩,
   (c4_grouping_blocks c4Init [] { type := "user", text := "hi", timestamp := 0 }
     rfl rfl).2⟩

/-- C5, evaluated at the failing input: during forward playback the first
tag reveal of a session leaves the panel hidden (the `size === 1` test in
`showTag` runs before the index is added to `renderedTags`); the panel only
becomes visible when the second tag is revealed. -/
theorem c5_code_evaluation :
    (updateMessages 100 c5State).renderedTags = {0} ∧
      (updateMessages 100 c5State).tagsVisible = false ∧
      (updateMessages 200
          { updateMessages 100 c5State with audioCurrentTime := 3 }).tagsVisible = true := by
  norm_num [c5State, initState, updateMessages, updateTags, tagsPass, showTag, messagesPass]

/-- C6 is false as stated: from `c6State` (10s track, clock at 9.95s) the
end transition fires and pins progress to 100%, but one further
`timeupdate` at the same clock reruns `updateProgress` and moves the
display back to 99.5% — only the Reveal Sets and the ended flag stay
unchanged. -/
theorem c6_counterexample :
    (onTimeUpdate 20 c6State).hasEnded = true ∧
      (onTimeUpdate 20 c6State).progressWidth = 100 ∧
      (onTimeUpdate 40 (onTimeUpdate 20 c6State)).hasEnded = true ∧
      (onTimeUpdate 40 (onTimeUpdate 20 c6State)).progressWidth ≠ 100 ∧
      (onTimeUpdate 40 (onTimeUpdate 20 c6State)).progressWidth = 199 / 2 := by
  norm_num [c6State, initState, onTimeUpdate, updateProgress, handleAudioEnd, pause,
    updateMessages]

/-- C6 (amended): once the ended flag is set, further `timeupdate` and
`ended` events leave the Reveal Sets and the ended flag unchanged, and the
terminal transition is idempotent and pins progress to 100%; a further
`timeupdate`, however, recomputes the progress display as
`currentTime / duration * 100`, which equals 100% only when the clock sits
exactly at `duration`. -/
theorem c6_amended_end_behavior (s : PlayerState) (now : ℚ)
    (h : s.hasEnded = true) (hd : s.isDragging = false) :
    (onTimeUpdate now s).renderedMessages = s.renderedMessages ∧
      (onTimeUpdate now s).renderedTags = s.renderedTags ∧
      (onTimeUpdate now s).hasEnded = true ∧
      (onTimeUpdate now s).progressWidth = s.audioCurrentTime / s.duration * 100 ∧
      (handleAudioEnd s).renderedMessages = s.renderedMessages ∧
      (handleAudioEnd s).renderedTags = s.renderedTags ∧
      (handleAudioEnd s).progressWidth = 100 ∧
      handleAudioEnd (handleAudioEnd s) = handleAudioEnd s := by
  rw [onTimeUpdate_of_ended now s h hd]
  exact ⟨rfl, rfl, h, rfl, rfl, rfl, rfl, handleAudioEnd_idem s⟩

/-- Witness for the amended C6 at a concrete ended state. -/
theorem c6_amended_end_behavior_witness :
    ((handleAudioEnd c6State).hasEnded = true ∧
        (handleAudioEnd c6State).isDragging = false) ∧
      (onTimeUpdate 40 (handleAudioEnd c6State)).renderedMessages =
        (handleAudioEnd c6State).renderedMessages :=
  ⟨⟨rfl, rfl⟩, (c6_amended_end_behavior (handleAudioEnd c6State) 40 rfl rfl).1⟩

/-- C7: `updateMessages` only ever adds indices to the message Reveal Set,
and along any non-decreasing sequence of sampled times fed through the
incremental path the Reveal Set after each sample is a superset of the
Reveal Set after the previous one. -/
theorem c7_monotonic_reveal (s : PlayerState) (samples : List (ℚ × ℚ)) (n : ℕ)
    (t now : ℚ) (hsorted : List.Sorted (· ≤ ·) (samples.map Prod.fst)) :
    s.renderedMessages ⊆
        (updateMessages now { s with audioCurrentTime := t }).renderedMessages ∧
      (processSamples (samples.take n) s).renderedMessages ⊆
        (processSamples (samples.take (n + 1)) s).renderedMessages :=
  ⟨updateMessages_renderedMessages_subset now { s with audioCurrentTime := t },
   processSamples_take_subset samples n s⟩

/-- Witness for C7 on a concrete sorted sample sequence. -/
theorem c7_monotonic_reveal_witness :
    List.Sorted (· ≤ ·) ([((1 : ℚ), (16 : ℚ)), (2, 32)].map Prod.fst) ∧
      (processSamples ([((1 : ℚ), (16 : ℚ)), (2, 32)].take 0) c4Init).renderedMessages ⊆
        (processSamples ([((1 : ℚ), (16 : ℚ)), (2, 32)].take 1) c4Init).renderedMessages :=
  ⟨by decide,
   (c7_monotonic_reveal c4Init [((1 : ℚ), (16 : ℚ)), (2, 32)] 0 0 16 (by decide)).2⟩

/-- C8: after every `switchConversation` call, regardless of pre-switch
state, both Reveal Sets are empty, the grouping cursor is unset, the
transcript and tag panel are cleared and hidden, progress is 0% and the
ended flag is false. -/
theorem c8_switch_resets (newConversation : List Message) (newAudioSrc : String)
    (tabId : String) (s : PlayerState) :
    (switchConversation newConversation newAudioSrc tabId s).renderedMessages = ∅ ∧
      (switchConversation newConversation newAudioSrc tabId s).renderedTags = ∅ ∧
      (switchConversation newConversation newAudioSrc tabId s).lastMessageElement = false ∧
      (switchConversation newConversation newAudioSrc tabId s).lastMessageType = none ∧
      (switchConversation newConversation newAudioSrc tabId s).progressWidth = 0 ∧
      (switchConversation newConversation newAudioSrc tabId s).hasEnded = false ∧
      (switchConversation newConversation newAudioSrc tabId s).blocks = [] ∧
      (switchConversation newConversation newAudioSrc tabId s).tagsContent = [] ∧
      (switchConversation newConversation newAudioSrc tabId s).tagsVisible = false :=
  ⟨rfl, rfl, rfl, rfl, rfl, rfl, rfl, rfl, rfl⟩

/-- C9 is false as stated: from `c9State` (drag active while the reveal loop
is running), one animation-frame tick reveals the due message — the
transcript is not frozen for the whole duration of the drag. -/
theorem c9_counterexample :
    c9State.isDragging = true ∧
      (forwardStep c9State (.animFrame 5 100)).renderedMessages ≠
        c9State.renderedMessages ∧
      0 ∈ (forwardStep c9State (.animFrame 5 100)).renderedMessages := by
  norm_num [c9State, initState, forwardStep, updateMessages, messagesPass, updateTags,
    tagsPass, showMessage, createNewMessage, appendToExistingMessage]

/-- C9 (amended): while a drag is active, `timeupdate` events from the media
source are ignored entirely (no reveal, no progress change, no end
transition), pointer moves update only the progress preview, and releasing
the pointer performs exactly one seek to the released position; the
animation-frame loop, however, keeps revealing due messages if playback
continues during the drag. -/
theorem c9_amended_drag_behavior (s : PlayerState) (t now pos : ℚ)
    (h : s.isDragging = true) :
    (forwardStep s (.timeUpdate t now)).renderedMessages = s.renderedMessages ∧
      (forwardStep s (.timeUpdate t now)).blocks = s.blocks ∧
      (forwardStep s (.timeUpdate t now)).progressWidth = s.progressWidth ∧
      (forwardStep s (.timeUpdate t now)).hasEnded = s.hasEnded ∧
      (onMouseMove pos s).renderedMessages = s.renderedMessages ∧
      (onMouseMove pos s).renderedTags = s.renderedTags ∧
      (onMouseMove pos s).blocks = s.blocks ∧
      (onMouseMove pos s).progressWidth = max 0 (min 1 pos) * 100 ∧
      onMouseUp pos s =
        seekToTime (max 0 (min 1 pos) * s.duration) { s with isDragging := false } := by
  have heq : forwardStep s (.timeUpdate t now) =
      onTimeUpdate now { s with audioCurrentTime := t } := rfl
  have h2 : ({ s with audioCurrentTime := t } : PlayerState).isDragging = true := h
  rw [heq, onTimeUpdate_of_dragging now { s with audioCurrentTime := t } h2]
  have hm : onMouseMove pos s = handleDrag pos s := by
    unfold onMouseMove
    rw [if_pos h]
  have hu : onMouseUp pos s =
      seekToTime (max 0 (min 1 pos) * s.duration) { s with isDragging := false } := by
    unfold onMouseUp handleDragEnd
    rw [if_pos h]
  rw [hm]
  exact ⟨rfl, rfl, rfl, rfl, rfl, rfl, rfl, rfl, hu⟩

/-- Witness for the amended C9 at a concrete dragging state. -/
theorem c9_amended_drag_behavior_witness :
    c9State.isDragging = true ∧
      (onMouseMove (1 / 2) c9State).renderedMessages = c9State.renderedMessages :=
  ⟨rfl, (c9_amended_drag_behavior c9State 5 100 (1 / 2) rfl).2.2.2.2.1⟩

/-- C10: once the ended flag is set, `updateMessages` returns its state
unchanged, `handleAudioEnd` performs no reveal pass, and no sequence of
forward-playback events (`timeupdate`, animation frames, `ended`) can
change either Reveal Set or clear the flag — anything due but unrevealed at
end detection stays unrevealed until a seek or restart. -/
theorem c10_ended_disables_forward (s : PlayerState) (now : ℚ)
    (evs : List PlaybackEvent) (h : s.hasEnded = true) :
    updateMessages now s = s ∧
      (handleAudioEnd s).renderedMessages = s.renderedMessages ∧
      (handleAudioEnd s).renderedTags = s.renderedTags ∧
      (evs.foldl forwardStep s).renderedMessages = s.renderedMessages ∧
      (evs.foldl forwardStep s).renderedTags = s.renderedTags ∧
      (evs.foldl forwardStep s).hasEnded = true := by
  obtain ⟨h1, h2, h3⟩ := foldl_forwardStep_of_ended evs s h
  exact ⟨updateMessages_of_hasEnded now s h, rfl, rfl, h1, h2, h3⟩

/-- Witness for C10 at a concrete ended state and event sequence. -/
theorem c10_ended_disables_forward_witness :
    (handleAudioEnd c6State).hasEnded = true ∧
      ([PlaybackEvent.timeUpdate 10 60, PlaybackEvent.audioEnded].foldl forwardStep
          (handleAudioEnd c6State)).renderedMessages =
        (handleAudioEnd c6State).renderedMessages :=
  ⟨rfl,
   (c10_ended_disables_forward (handleAudioEnd c6State) 60
      [PlaybackEvent.timeUpdate 10 60, PlaybackEvent.audioEnded] rfl).2.2.2.1⟩
